import Mathlib

/-!
Verification development for the libdatafile recording engine.

The development embeds, in Lean, the data model and operations of the
HDF5-backed recording store declared in `h5recording/include/h5recording.h`
and driven by `mealog/src/mealog.cpp`: the chunked sample store, the
recording handle with its `lastValidSample` boundary, the acquisition sink
that appends fixed-size blocks, and the status-query responder.

Machine integers are modelled as `Nat`/`Int`; floating-point attributes
(`gain`, `offset`, `sampleRate`, `length`) are modelled as exact rationals,
which is faithful for the values these fields actually take (small integers
scaled by powers of two).
-/

namespace LibDataFile

/-! ### Constants from `h5recording.h` -/

/-- `const int NCHANNELS = 64;` -/
def NCHANNELS : ℕ := 64

/-- `const int BLOCK_SIZE = 2000;` -/
def BLOCK_SIZE : ℕ := 2000

/-- `const hsize_t DATASET_CHUNK_DIMS[DATASET_RANK] = {NCHANNELS, BLOCK_SIZE};`
The second component is the chunk extent along the sample axis. -/
def DATASET_CHUNK_DIMS : ℕ × ℕ := (NCHANNELS, BLOCK_SIZE)

/-- Default of the member `uint32_t _blockSize = 20000;` in `H5Recording`. -/
def defaultBlockSize : ℕ := 20000

/-- Default of the member `float _sampleRate = 10000;` in `H5Recording`. -/
def defaultSampleRate : ℚ := 10000

/-- Default of the member `uint32_t _nchannels = 64;` in `H5Recording`. -/
def defaultNchannels : ℕ := 64

/-! ### Error taxonomy (spec section 7) -/

/-- The error taxonomy of the storage engine. -/
inductive RecError where
  | FormatError
  | CorruptRecordingError
  | AllocationError
  | RangeError
  | CapacityError
  | NotLiveError
  | AttributeMissingError
  | AttributeTypeError
  | IOError
  deriving DecidableEq, Repr

/-! ### Chunked sample store -/

/-- A block of raw samples delivered by acquisition: channel index and
local sample index to a signed 16-bit value (modelled as `ℤ`). -/
def Block : Type := ℕ → ℕ → ℤ

/-- The chunked sample store: a `nchannels × nsamples` matrix of raw
int16 samples, addressed as `data channel sampleIndex`. -/
structure Store where
  nchannels : ℕ
  nsamples : ℕ
  data : ℕ → ℕ → ℤ

/-- Modelled from the spec: `writeRange` of the Chunked Sample Store
(section 4.2); the implementation file `h5recording.cpp` is not in the
sources, only its declaration `H5Recording::setData`.  Writes a
`nchannels × width` block at sample offsets `[start, start + width)`,
overwriting prior contents there and leaving all other samples unchanged. -/
def Store.writeRange (st : Store) (start width : ℕ) (B : Block) : Store :=
  { st with data := fun c s =>
      if start ≤ s ∧ s < start + width then B c (s - start) else st.data c s }

/-- Modelled from the spec: `readRange` of the Chunked Sample Store
(section 4.2); the implementation of `H5Recording::data` is not in the
sources.  Returns the `nchannels × (e - s)` matrix (channel-major, as the
`boost::multi_array` extents `[nchannels][nsamples]` are) for the sample
range `[s, e)`; fails with `RangeError` unless `0 ≤ s < e ≤ nsamples`. -/
def Store.readRange (st : Store) (s e : ℤ) : Except RecError (List (List ℤ)) :=
  if 0 ≤ s ∧ s < e ∧ e ≤ (st.nsamples : ℤ) then
    .ok ((List.range st.nchannels).map (fun c =>
      (List.range (e - s).toNat).map (fun i => st.data c (s.toNat + i))))
  else
    .error .RangeError

/-- Modelled from the spec: `readRangeAsVoltage` (section 4.2); the
implementation of the `samples_d` overload of `H5Recording::data` is not in
the sources.  Reads the same raw range and applies
`voltage = raw * gain - offset` to every element. -/
def Store.readRangeAsVoltage (st : Store) (s e : ℤ) (gain off : ℚ) :
    Except RecError (List (List ℚ)) :=
  (st.readRange s e).map (fun m => m.map (fun row =>
    row.map (fun x => (x : ℚ) * gain - off)))

/-- The raw contents of the store over sample offsets `[start, start+width)`,
as a channel-major matrix.  Used to state read-back properties. -/
def Store.window (st : Store) (start width : ℕ) : List (List ℤ) :=
  (List.range st.nchannels).map (fun c =>
    (List.range width).map (fun i => st.data c (start + i)))

/-- A block rendered as a channel-major `nch × width` matrix. -/
def blockMatrix (nch width : ℕ) (B : Block) : List (List ℤ) :=
  (List.range nch).map (fun c => (List.range width).map (fun i => B c i))

/-- Horizontal concatenation of channel-major matrices (concatenation
along the sample axis, per channel). -/
def hcat (m₁ m₂ : List (List ℤ)) : List (List ℤ) :=
  List.zipWith (· ++ ·) m₁ m₂

/-- The concatenation, in order, of a list of `nch × width` blocks as one
channel-major matrix. -/
def concatBlocks (nch width : ℕ) : List Block → List (List ℤ)
  | [] => (List.range nch).map (fun _ => ([] : List ℤ))
  | B :: rest => hcat (blockMatrix nch width B) (concatBlocks nch width rest)

/-! ### Recording handle -/

/-- The in-memory state of one `H5Recording` handle: the store plus the
attribute members declared in `h5recording.h`. -/
structure Recording where
  store : Store
  live : Bool
  lastValidSample : ℕ
  blockSize : ℕ
  sampleRate : ℚ
  gain : ℚ
  offset : ℚ
  filename : String
  length : ℚ
  typ : ℤ
  version : ℤ
  date : String
  time : String

/-- Modelled from the spec: `appendBlock` of the Recording Handle
(section 4.3); the write path `H5Recording::setData` plus
`setLastValidSample` is implemented in the missing `h5recording.cpp`.
Checks `live` (else `NotLiveError`), then capacity
(`lastValidSample + width ≤ nsamples`, else `CapacityError`), then writes
the block at `[lastValidSample, lastValidSample + width)` and advances
`lastValidSample` as the final step.  On error the state is returned
unchanged, per section 7: any error leaves `lastValidSample` unchanged. -/
def appendBlock (r : Recording) (width : ℕ) (B : Block) :
    Option RecError × Recording :=
  if r.live = false then (some .NotLiveError, r)
  else if r.store.nsamples < r.lastValidSample + width then
    (some .CapacityError, r)
  else
    (none, { r with
      store := r.store.writeRange r.lastValidSample width B,
      lastValidSample := r.lastValidSample + width })

/-- Appending a list of blocks, each of width `w`, stopping at the first
error. -/
def appendBlocks (w : ℕ) (r : Recording) : List Block → Option RecError × Recording
  | [] => (none, r)
  | B :: rest =>
    match appendBlock r w B with
    | (none, r₁) => appendBlocks w r₁ rest
    | (some e, r₁) => (some e, r₁)

/-- Modelled from the spec: `readSamples` of the Recording Handle
(section 4.3); the implementation of `H5Recording::data` is not in the
sources.  Fails with `RangeError` if `startSample ≥ lastValidSample`,
otherwise clamps `endSample` to `lastValidSample` and delegates to the
store. -/
def Recording.readSamples (r : Recording) (s e : ℤ) :
    Except RecError (List (List ℤ)) :=
  if (r.lastValidSample : ℤ) ≤ s then .error .RangeError
  else r.store.readRange s (min e (r.lastValidSample : ℤ))

/-- Modelled from the spec: `readVoltage` of the Recording Handle
(section 4.3); same guard and clamp as `readSamples`, delegating to the
voltage-converting store read. -/
def Recording.readVoltage (r : Recording) (s e : ℤ) :
    Except RecError (List (List ℚ)) :=
  if (r.lastValidSample : ℤ) ≤ s then .error .RangeError
  else r.store.readRangeAsVoltage s (min e (r.lastValidSample : ℤ)) r.gain r.offset

/-- Modelled from the spec: `finalize` (section 4.3) sets `live = false`
via `H5Recording::setLive` and persists it. -/
def finalize (r : Recording) : Recording :=
  { r with live := false }

/-! ### Recording creation (`MealogWindow::setRecordingParameters`) -/

/-- Embedding of `MealogWindow::setRecordingParameters` (mealog.cpp,
lines 289-311).  `timeText` is the value of the duration line edit, which
a `QIntValidator(1, MAX)` restricts to an integer, hence `ℕ`.  The calls
`setFileType(type())`, `setFileVersion(version())`, `setSampleRate(sampleRate())`
re-store the current values and so leave those fields unchanged.
`setNumSamples(length() * sampleRate())` converts the `double` product to
`uint32_t`, which truncates toward zero, i.e. takes the floor of a
non-negative value.  `setGain((adcRange * 2) / (1 << 16))` and
`setOffset(adcRange)` derive the calibration from the chosen ADC range. -/
def setRecordingParameters (timeText : ℕ) (adcRange : ℚ) (tm dt : String)
    (r : Recording) : Recording :=
  { r with
    length := (timeText : ℚ),
    live := true,
    lastValidSample := 0,
    store := { r.store with
      nsamples := (⌊(timeText : ℚ) * r.sampleRate⌋).toNat },
    offset := adcRange,
    gain := (adcRange * 2) / ((2 : ℚ) ^ 16),
    time := tm,
    date := dt }

/-! ### The acquisition sink (`MealogWindow::recvData`) as a step machine

`recvData` (mealog.cpp, lines 505-514) performs, in order:
`recording->setData(numSamplesAcquired, numSamplesAcquired + blockSize, samples)`,
then `numSamplesAcquired += blockSize`, then
`recording->setLastValidSample(numSamplesAcquired)`.  We model each of the
three statements as one atomic step on a small state, so that every
intermediate state (as seen by a concurrent reader of `lastValidSample`)
is reachable in the transition system. -/

/-- The observable state of the acquisition sink: `written` is the extent
of durably written samples (the least upper bound of all completed
`setData` ranges), `numSamplesAcquired` the window's counter, and
`lastValidSample` the boundary published to readers.  `pc` locates control
inside `recvData`: `0` between calls, `1` after the data write, `2` after
the counter update. -/
structure SinkState where
  written : ℕ
  numSamplesAcquired : ℕ
  lastValidSample : ℕ
  pc : ℕ
  deriving DecidableEq, Repr

/-- The state before any block has been received. -/
def initSink : SinkState := ⟨0, 0, 0, 0⟩

/-- One atomic statement of `recvData`, with block size `bs`:
the `setData` write over `[numSamplesAcquired, numSamplesAcquired + bs)`,
the `numSamplesAcquired += bs` update, and the `setLastValidSample`
publication, in program order. -/
inductive SinkStep (bs : ℕ) : SinkState → SinkState → Prop where
  | setData (s : SinkState) (h : s.pc = 0) :
      SinkStep bs s ⟨max s.written (s.numSamplesAcquired + bs),
        s.numSamplesAcquired, s.lastValidSample, 1⟩
  | addAcquired (s : SinkState) (h : s.pc = 1) :
      SinkStep bs s ⟨s.written, s.numSamplesAcquired + bs, s.lastValidSample, 2⟩
  | setLastValid (s : SinkState) (h : s.pc = 2) :
      SinkStep bs s ⟨s.written, s.numSamplesAcquired, s.numSamplesAcquired, 0⟩

/-- Reachability from the start state by the statements of `recvData`. -/
def SinkReachable (bs : ℕ) (s : SinkState) : Prop :=
  Relation.ReflTransGen (SinkStep bs) initSink s

/-! ### Status protocol (`MealogWindow` message handling) -/

/-- A `mearec::RecordingStatusRequest`: ten optional boolean fields, each
one present (`has_x()`) and then true or false. -/
structure RecordingStatusRequest where
  status : Option Bool
  filename : Option Bool
  length : Option Bool
  nsamples : Option Bool
  lastvalidsample : Option Bool
  blocksize : Option Bool
  samplerate : Option Bool
  gain : Option Bool
  offset : Option Bool
  date : Option Bool
  deriving DecidableEq, Repr

/-- A field of the request counts as requested exactly when it is present
and set: `request.has_x() && request.x()`. -/
def fieldRequested (f : Option Bool) : Bool :=
  match f with
  | some true => true
  | _ => false

/-- A `mearec::RecordingStatusReply`: every field optional-present. -/
structure RecordingStatusReply where
  status : Option Bool
  filename : Option String
  length : Option ℚ
  nsamples : Option ℕ
  lastvalidsample : Option ℕ
  blocksize : Option ℕ
  samplerate : Option ℚ
  gain : Option ℚ
  offset : Option ℚ
  date : Option String

/-- The state of the `MealogWindow` that the message handlers consult:
the recording handle, the window's own `recordingStatus` member (read at
mealog.cpp line 221 and never assigned anywhere in mealog.cpp), and the
`recordingInitialized` flag. -/
structure WindowState where
  recording : Recording
  recordingStatus : Bool
  recInitDone : Bool

/-- Embedding of `MealogWindow::constructStatusReply` (mealog.cpp, lines
217-241): for each field, `if (request.has_x() && request.x())
reply.set_x(...)`.  Every field except `status` is filled from a getter of
the recording handle; `status` is filled from the window member
`recordingStatus`. -/
def constructStatusReply (w : WindowState) (req : RecordingStatusRequest) :
    RecordingStatusReply where
  status := if fieldRequested req.status then some w.recordingStatus else none
  filename := if fieldRequested req.filename then some w.recording.filename else none
  length := if fieldRequested req.length then some w.recording.length else none
  nsamples := if fieldRequested req.nsamples then some w.recording.store.nsamples else none
  lastvalidsample :=
    if fieldRequested req.lastvalidsample then some w.recording.lastValidSample else none
  blocksize := if fieldRequested req.blocksize then some w.recording.blockSize else none
  samplerate := if fieldRequested req.samplerate then some w.recording.sampleRate else none
  gain := if fieldRequested req.gain then some w.recording.gain else none
  offset := if fieldRequested req.offset then some w.recording.offset else none
  date := if fieldRequested req.date then some w.recording.date else none

/-- Embedding of `MealogWindow::readMessage` (mealog.cpp, lines 166-177):
reads the `quint32` size header, returns failure when it is zero, and
otherwise returns the protobuf parse outcome of the body (`parsed` stands
for the result of `ParseFromString`: `none` when parsing fails). -/
def readMessage (size : ℕ) (parsed : Option RecordingStatusRequest) :
    Option RecordingStatusRequest :=
  if size = 0 then none else parsed

/-- Embedding of `MealogWindow::respondToClient` (mealog.cpp, lines
197-215): when the recording is not yet set up, the message is ignored
with no reply; when `readMessage` fails (zero size header or a parse
failure) no reply is sent; otherwise the reply built by
`constructStatusReply` is written back.  The return value is the reply
written to the socket, `none` when nothing is written. -/
def respondToClient (w : WindowState) (size : ℕ)
    (parsed : Option RecordingStatusRequest) : Option RecordingStatusReply :=
  if w.recInitDone = false then none
  else
    match readMessage size parsed with
    | none => none
    | some req => some (constructStatusReply w req)

/-! ### Concrete fixtures used to instantiate the theorems -/

/-- The empty string, named so fixtures can use it positionally. -/
def emptyStr : String := ""

/-- A small concrete store: 2 channels, 200 samples of junk data. -/
def testStore : Store :=
  { nchannels := 2, nsamples := 200, data := fun c s => (c : ℤ) + s }

/-- A concrete live recording, 100 of 200 samples valid. -/
def testRec : Recording :=
  { store := testStore, live := true, lastValidSample := 100, blockSize := 20,
    sampleRate := 10000, gain := 1 / 2, offset := 3, filename := emptyStr,
    length := 1, typ := 2, version := 1, date := emptyStr, time := emptyStr }

/-- A concrete freshly created recording: 2 channels, capacity 4 samples,
block size 2, nothing written yet. -/
def freshRec : Recording :=
  { store := { nchannels := 2, nsamples := 4, data := fun _ _ => 0 },
    live := true, lastValidSample := 0, blockSize := 2, sampleRate := 10000,
    gain := 1, offset := 0, filename := emptyStr, length := 1, typ := 2,
    version := 1, date := emptyStr, time := emptyStr }

/-- A recording whose attribute members still hold the defaults of
`h5recording.h` in the fields that have initializers there. -/
def defaultsRec : Recording :=
  { store := { nchannels := defaultNchannels, nsamples := 0, data := fun _ _ => 0 },
    live := false, lastValidSample := 0, blockSize := defaultBlockSize,
    sampleRate := defaultSampleRate, gain := 0, offset := 0,
    filename := emptyStr, length := 0, typ := 2, version := 1,
    date := emptyStr, time := emptyStr }

/-- A concrete acquisition block. -/
def blkA : Block := fun c i => (c : ℤ) + i

/-- Another concrete acquisition block. -/
def blkB : Block := fun c i => 10 + (c : ℤ) + i

/-- A status request asking only for the `status` field. -/
def statusOnlyRequest : RecordingStatusRequest :=
  ⟨some true, none, none, none, none, none, none, none, none, none⟩

/-- A window state in which the recording is live but the window member
`recordingStatus` is false: `mealog.cpp` never assigns `recordingStatus`,
so nothing keeps it synchronized with `recording->live()`. -/
def mismatchWindow : WindowState :=
  { recording := testRec, recordingStatus := false, recInitDone := true }

/-! ### Helper lemmas -/

/-- `zipWith (++)` of two maps over the same index list is a single map. -/
theorem zipWith_append_map {α β : Type} (f g : α → List β) :
    ∀ (l : List α), List.zipWith (· ++ ·) (l.map f) (l.map g) =
      l.map (fun c => f c ++ g c)
  | [] => rfl
  | a :: l => by simp [zipWith_append_map f g l]

/-- A window over `w₁ + w₂` samples splits as the horizontal concatenation
of the two sub-windows. -/
theorem window_add (st : Store) (start w₁ w₂ : ℕ) :
    st.window start (w₁ + w₂) =
      hcat (st.window start w₁) (st.window (start + w₁) w₂) := by
  unfold Store.window hcat
  rw [zipWith_append_map]
  apply List.map_congr_left
  intro c _
  rw [List.range_add, List.map_append, List.map_map]
  simp [Function.comp, Nat.add_assoc]

/-- Windows agree when the two stores have the same channel count and the
same data over the window. -/
theorem window_congr (st₁ st₂ : Store) (start w : ℕ)
    (hn : st₁.nchannels = st₂.nchannels)
    (hd : ∀ c i, i < w → st₁.data c (start + i) = st₂.data c (start + i)) :
    st₁.window start w = st₂.window start w := by
  unfold Store.window
  rw [hn]
  apply List.map_congr_left
  intro c _
  apply List.map_congr_left
  intro i hi
  exact hd c i (List.mem_range.mp hi)

/-- The window of a range write, over exactly the written range, is the
written block. -/
theorem window_writeRange_self (st : Store) (p w : ℕ) (B : Block) :
    (st.writeRange p w B).window p w = blockMatrix st.nchannels w B := by
  unfold Store.window Store.writeRange blockMatrix
  apply List.map_congr_left
  intro c _
  apply List.map_congr_left
  intro i hi
  have hiw : i < w := List.mem_range.mp hi
  dsimp only
  rw [if_pos ⟨Nat.le_add_right _ _, by omega⟩]
  congr 1
  omega

/-- A live, within-capacity append succeeds: it writes the block at
`[lastValidSample, lastValidSample + w)` and advances the boundary. -/
theorem appendBlock_ok (r : Recording) (w : ℕ) (B : Block)
    (hl : r.live = true) (hcap : r.lastValidSample + w ≤ r.store.nsamples) :
    appendBlock r w B =
      (none, { r with
        store := r.store.writeRange r.lastValidSample w B,
        lastValidSample := r.lastValidSample + w }) := by
  unfold appendBlock
  rw [if_neg (by simp [hl]), if_neg (by omega)]

/-- Appending a list of within-capacity blocks from a live state succeeds,
advances `lastValidSample` by the total width, preserves the geometry and
calibration attributes, leaves previously valid samples untouched, and
leaves the appended region holding exactly the concatenation of the
blocks. -/
theorem appendBlocks_ok (w : ℕ) (blocks : List Block) :
    ∀ (r : Recording), r.live = true →
      r.lastValidSample + blocks.length * w ≤ r.store.nsamples →
      ∃ r', appendBlocks w r blocks = (none, r') ∧
        r'.live = true ∧
        r'.lastValidSample = r.lastValidSample + blocks.length * w ∧
        r'.store.nchannels = r.store.nchannels ∧
        r'.store.nsamples = r.store.nsamples ∧
        r'.gain = r.gain ∧ r'.offset = r.offset ∧
        r'.blockSize = r.blockSize ∧
        (∀ c s, s < r.lastValidSample → r'.store.data c s = r.store.data c s) ∧
        r'.store.window r.lastValidSample (blocks.length * w) =
          concatBlocks r.store.nchannels w blocks := by
  induction blocks with
  | nil =>
    intro r hl _
    refine ⟨r, rfl, hl, by simp, rfl, rfl, rfl, rfl, rfl, fun c s _ => rfl, ?_⟩
    simp [Store.window, concatBlocks]
  | cons B rest ih =>
    intro r hl hcap
    rw [List.length_cons, Nat.succ_mul] at hcap
    have hcap1 : r.lastValidSample + w ≤ r.store.nsamples := by omega
    have happ := appendBlock_ok r w B hl hcap1
    set r₁ : Recording :=
      { r with
        store := r.store.writeRange r.lastValidSample w B,
        lastValidSample := r.lastValidSample + w } with hr₁
    have hcap2 : r₁.lastValidSample + rest.length * w ≤ r₁.store.nsamples := by
      simp only [hr₁, Store.writeRange]
      omega
    obtain ⟨r', heq, hlive, hlvs, hnch, hns, hg, ho, hbs, hpres, hwin⟩ :=
      ih r₁ hl hcap2
    refine ⟨r', ?_, hlive, ?_, hnch, hns, hg, ho, hbs, ?_, ?_⟩
    · simp only [appendBlocks, happ]
      exact heq
    · rw [hlvs]
      simp only [hr₁, List.length_cons, Nat.succ_mul]
      omega
    · intro c s hs
      rw [hpres c s (by simp only [hr₁]; omega)]
      simp only [hr₁, Store.writeRange]
      rw [if_neg (by omega)]
    · rw [List.length_cons, Nat.succ_mul, Nat.add_comm (rest.length * w) w,
        window_add]
      unfold concatBlocks
      have h₂ : r'.store.window (r.lastValidSample + w) (rest.length * w) =
          concatBlocks r.store.nchannels w rest := hwin
      rw [h₂]
      congr 1
      have h₁ : r'.store.window r.lastValidSample w =
          r₁.store.window r.lastValidSample w := by
        apply window_congr
        · exact hnch
        · intro c i hi
          exact hpres c (r.lastValidSample + i) (by simp only [hr₁]; omega)
      rw [h₁]
      exact window_writeRange_self r.store r.lastValidSample w B

/-! ### Claim theorems -/

/-- C5: the claim says the storage chunk size along the sample axis equals
the recording's `blockSize` attribute, both 20000 by default.  In
`h5recording.h` the chunk geometry constant `DATASET_CHUNK_DIMS` uses
`BLOCK_SIZE = 2000` along the sample axis, while the member `_blockSize`
defaults to 20000: the two disagree by a factor of ten, even though the
header's own comment documents `_blockSize` as the size of the HDF5
chunks. -/
theorem chunkDims_ne_blockSize :
    DATASET_CHUNK_DIMS.2 = 2000 ∧ defaultsRec.blockSize = 20000 ∧
    DATASET_CHUNK_DIMS.2 ≠ defaultsRec.blockSize := by
  refine ⟨rfl, rfl, ?_⟩
  decide

/-- C7: after `finalize` the recording is not live, and every append
attempt fails with `NotLiveError` and returns the state — hence
`lastValidSample` and the stored data — unchanged. -/
theorem appendBlock_after_finalize (r : Recording) (w : ℕ) (B : Block) :
    (finalize r).live = false ∧
    (appendBlock (finalize r) w B).1 = some RecError.NotLiveError ∧
    (appendBlock (finalize r) w B).2 = finalize r := by
  refine ⟨rfl, ?_, ?_⟩ <;> simp [appendBlock, finalize]

/-- C8: reading fails with `RangeError` whenever `startSample` is at or
beyond `lastValidSample`; it fails with `RangeError` whenever the end
index precedes the start index; and otherwise (start below the boundary)
it delegates to the store with `endSample` clamped to `lastValidSample`. -/
theorem readSamples_range_guard :
    (∀ (r : Recording) (s e : ℤ), (r.lastValidSample : ℤ) ≤ s →
      r.readSamples s e = .error RecError.RangeError) ∧
    (∀ (r : Recording) (s e : ℤ), e < s →
      r.readSamples s e = .error RecError.RangeError) ∧
    (∀ (r : Recording) (s e : ℤ), s < (r.lastValidSample : ℤ) →
      r.readSamples s e = r.store.readRange s (min e (r.lastValidSample : ℤ))) := by
  refine ⟨?_, ?_, ?_⟩
  · intro r s e h
    unfold Recording.readSamples
    rw [if_pos h]
  · intro r s e h
    unfold Recording.readSamples
    by_cases hls : (r.lastValidSample : ℤ) ≤ s
    · rw [if_pos hls]
    · rw [if_neg hls]
      unfold Store.readRange
      rw [if_neg (by omega)]
  · intro r s e h
    unfold Recording.readSamples
    rw [if_neg (by omega)]

/-- C8 witness: on a concrete recording with 100 valid samples, the
spec's example `readSamples(50, 40)` (end before start) fails with
`RangeError`. -/
theorem readSamples_range_guard_witness :
    ((40 : ℤ) < 50) ∧
    testRec.readSamples 50 40 = .error RecError.RangeError :=
  ⟨by decide, readSamples_range_guard.2.1 testRec 50 40 (by decide)⟩

/-- C10: a status query is answered with no reply at all while the
recording is uninitialized, when the length header is zero, and when the
body fails to parse; once initialized, a parseable request (nonzero
length, successful parse) is answered with the reply built by
`constructStatusReply`. -/
theorem respondToClient_reply_conditions (w : WindowState) (size : ℕ)
    (parsed : Option RecordingStatusRequest) (req : RecordingStatusRequest) :
    respondToClient { w with recInitDone := false } size parsed = none ∧
    respondToClient w 0 parsed = none ∧
    respondToClient w size none = none ∧
    respondToClient { w with recInitDone := true } (size + 1) (some req) =
      some (constructStatusReply { w with recInitDone := true } req) := by
  refine ⟨rfl, ?_, ?_, ?_⟩
  · unfold respondToClient readMessage
    cases w.recInitDone <;> simp
  · unfold respondToClient readMessage
    cases w.recInitDone <;> simp
  · unfold respondToClient readMessage
    simp

/-- `(if b then some x else none).isSome = b`. -/
theorem isSome_ite_some {α : Type} (b : Bool) (x : α) :
    (if b = true then some x else none).isSome = b := by
  cases b <;> simp

/-- C9 counterexample: at a window state whose recording is live but whose
`recordingStatus` member is false — nothing in `mealog.cpp` ever assigns
`recordingStatus`, so it is not kept synchronized with
`recording->live()` — a request for the status field is answered with the
window member, not with the recording handle's live getter. -/
theorem statusReply_status_ne_live :
    (constructStatusReply mismatchWindow statusOnlyRequest).status = some false ∧
    mismatchWindow.recording.live = true ∧
    (constructStatusReply mismatchWindow statusOnlyRequest).status ≠
      some mismatchWindow.recording.live := by
  refine ⟨rfl, rfl, ?_⟩
  decide

/-- C9 amended: the reply contains a field exactly when that field was
requested (`has_x() && x()`), and each present field carries the
corresponding recording-handle getter value, except `status`, which
carries the window's own `recordingStatus` member rather than the
recording's live flag. -/
theorem constructStatusReply_fields (w : WindowState)
    (req : RecordingStatusRequest) :
    ((constructStatusReply w req).status.isSome = fieldRequested req.status ∧
      (constructStatusReply w req).status =
        if fieldRequested req.status then some w.recordingStatus else none) ∧
    ((constructStatusReply w req).filename.isSome = fieldRequested req.filename ∧
      (constructStatusReply w req).filename =
        if fieldRequested req.filename then some w.recording.filename else none) ∧
    ((constructStatusReply w req).length.isSome = fieldRequested req.length ∧
      (constructStatusReply w req).length =
        if fieldRequested req.length then some w.recording.length else none) ∧
    ((constructStatusReply w req).nsamples.isSome = fieldRequested req.nsamples ∧
      (constructStatusReply w req).nsamples =
        if fieldRequested req.nsamples then some w.recording.store.nsamples else none) ∧
    ((constructStatusReply w req).lastvalidsample.isSome =
        fieldRequested req.lastvalidsample ∧
      (constructStatusReply w req).lastvalidsample =
        if fieldRequested req.lastvalidsample then
          some w.recording.lastValidSample else none) ∧
    ((constructStatusReply w req).blocksize.isSome = fieldRequested req.blocksize ∧
      (constructStatusReply w req).blocksize =
        if fieldRequested req.blocksize then some w.recording.blockSize else none) ∧
    ((constructStatusReply w req).samplerate.isSome = fieldRequested req.samplerate ∧
      (constructStatusReply w req).samplerate =
        if fieldRequested req.samplerate then some w.recording.sampleRate else none) ∧
    ((constructStatusReply w req).gain.isSome = fieldRequested req.gain ∧
      (constructStatusReply w req).gain =
        if fieldRequested req.gain then some w.recording.gain else none) ∧
    ((constructStatusReply w req).offset.isSome = fieldRequested req.offset ∧
      (constructStatusReply w req).offset =
        if fieldRequested req.offset then some w.recording.offset else none) ∧
    ((constructStatusReply w req).date.isSome = fieldRequested req.date ∧
      (constructStatusReply w req).date =
        if fieldRequested req.date then some w.recording.date else none) :=
  ⟨⟨isSome_ite_some _ _, rfl⟩, ⟨isSome_ite_some _ _, rfl⟩,
    ⟨isSome_ite_some _ _, rfl⟩, ⟨isSome_ite_some _ _, rfl⟩,
    ⟨isSome_ite_some _ _, rfl⟩, ⟨isSome_ite_some _ _, rfl⟩,
    ⟨isSome_ite_some _ _, rfl⟩, ⟨isSome_ite_some _ _, rfl⟩,
    ⟨isSome_ite_some _ _, rfl⟩, ⟨isSome_ite_some _ _, rfl⟩⟩

/-- C6: setting up a new recording stores
`nsamples = lengthSeconds * sampleRate` (the `double` product truncated to
`uint32_t`, which on the integral durations admitted by the GUI's
`QIntValidator` coincides with rounding), `gain = 2 * adcRange / 65536`,
`offset = adcRange`, `live = true` and `lastValidSample = 0`.  The
hypothesis pins `sampleRate` at the `h5recording.h` default 10000, the
only value a freshly constructed recording can carry on this path. -/
theorem setRecordingParameters_law (r : Recording) (t : ℕ) (adc : ℚ)
    (tm dt : String) (hsr : r.sampleRate = 10000) :
    (setRecordingParameters t adc tm dt r).store.nsamples = t * 10000 ∧
    ((setRecordingParameters t adc tm dt r).store.nsamples : ℤ) =
      round ((t : ℚ) * r.sampleRate) ∧
    (setRecordingParameters t adc tm dt r).gain = 2 * adc / 65536 ∧
    (setRecordingParameters t adc tm dt r).offset = adc ∧
    (setRecordingParameters t adc tm dt r).live = true ∧
    (setRecordingParameters t adc tm dt r).lastValidSample = 0 := by
  have hfloor : ⌊(t : ℚ) * r.sampleRate⌋ = (t : ℤ) * 10000 := by
    rw [hsr]
    have : (t : ℚ) * 10000 = (((t : ℤ) * 10000 : ℤ) : ℚ) := by push_cast; ring
    rw [this, Int.floor_intCast]
  have hns : (setRecordingParameters t adc tm dt r).store.nsamples = t * 10000 := by
    show (⌊(t : ℚ) * r.sampleRate⌋).toNat = t * 10000
    rw [hfloor]
    omega
  refine ⟨hns, ?_, ?_, rfl, rfl, rfl⟩
  · rw [hns, hsr]
    have : (t : ℚ) * 10000 = (((t * 10000 : ℕ) : ℤ) : ℚ) := by push_cast; ring
    rw [this, round_intCast]
  · show (adc * 2) / ((2 : ℚ) ^ 16) = 2 * adc / 65536
    norm_num
    ring_nf

/-- C6 witness: the spec's example. Starting from the header defaults
(`sampleRate = 10000`) with a 10-second duration and ADC range 5.0, the
new recording has `nsamples = 100000`, `gain = 10/65536` and
`offset = 5`. -/
theorem setRecordingParameters_law_witness :
    defaultsRec.sampleRate = 10000 ∧
    (setRecordingParameters 10 5 emptyStr emptyStr defaultsRec).store.nsamples = 100000 ∧
    (setRecordingParameters 10 5 emptyStr emptyStr defaultsRec).gain = 10 / 65536 ∧
    (setRecordingParameters 10 5 emptyStr emptyStr defaultsRec).offset = 5 ∧
    (setRecordingParameters 10 5 emptyStr emptyStr defaultsRec).live = true ∧
    (setRecordingParameters 10 5 emptyStr emptyStr defaultsRec).lastValidSample = 0 := by
  have hsr : defaultsRec.sampleRate = 10000 := by
    norm_num [defaultsRec, defaultSampleRate]
  have h := setRecordingParameters_law defaultsRec 10 5 emptyStr emptyStr hsr
  refine ⟨hsr, ?_, ?_, h.2.2.2.1, h.2.2.2.2.1, h.2.2.2.2.2⟩
  · rw [h.1]
  · rw [h.2.2.1]
    norm_num

/-- The inductive invariant of the acquisition sink: the published
boundary never exceeds the written extent nor the acquisition counter; at
rest the boundary equals the counter; between the data write and the
publication the written extent already covers the range being appended. -/
def SinkInv (bs : ℕ) (s : SinkState) : Prop :=
  s.lastValidSample ≤ s.written ∧
  s.lastValidSample ≤ s.numSamplesAcquired ∧
  (s.pc = 0 → s.lastValidSample = s.numSamplesAcquired) ∧
  (s.pc = 1 → s.numSamplesAcquired + bs ≤ s.written) ∧
  (s.pc = 2 → s.numSamplesAcquired ≤ s.written)

/-- The invariant holds at the start state. -/
theorem sinkInv_init (bs : ℕ) : SinkInv bs initSink :=
  ⟨Nat.le_refl 0, Nat.le_refl 0, fun _ => rfl,
    fun hpc => absurd hpc (by decide), fun hpc => absurd hpc (by decide)⟩

/-- Each statement of `recvData` preserves the invariant. -/
theorem sinkInv_step (bs : ℕ) (s s' : SinkState)
    (hinv : SinkInv bs s) (hstep : SinkStep bs s s') : SinkInv bs s' := by
  obtain ⟨h₁, h₂, h₃, h₄, h₅⟩ := hinv
  cases hstep with
  | setData h =>
    have hA := Nat.le_max_left s.written (s.numSamplesAcquired + bs)
    have hB := Nat.le_max_right s.written (s.numSamplesAcquired + bs)
    refine ⟨?_, ?_, ?_, ?_, ?_⟩ <;> dsimp only <;> intros <;> omega
  | addAcquired h =>
    have hc := h₄ h
    refine ⟨?_, ?_, ?_, ?_, ?_⟩ <;> dsimp only <;> intros <;> omega
  | setLastValid h =>
    have hc := h₅ h
    refine ⟨?_, ?_, ?_, ?_, ?_⟩ <;> dsimp only <;> intros <;> omega

/-- C1: in `recvData` the advance of `lastValidSample` is the final
statement, after the data write for
`[numSamplesAcquired, numSamplesAcquired + blockSize)` has completed; in
every state reachable by the sink — including the states between the
individual statements — `lastValidSample` never exceeds the extent of
written data, and at every point where a new append can begin the write
target `[lastValidSample, lastValidSample + blockSize)` starts exactly at
the boundary. -/
theorem recvData_boundary_safe (bs : ℕ) (s : SinkState)
    (h : SinkReachable bs s) :
    s.lastValidSample ≤ s.written ∧
    (s.pc = 0 → s.lastValidSample = s.numSamplesAcquired) := by
  have hinv : SinkInv bs s := by
    induction h with
    | refl => exact sinkInv_init bs
    | tail _ hstep ih => exact sinkInv_step bs _ _ ih hstep
  exact ⟨hinv.1, hinv.2.2.1⟩

/-- C1 witness: the state after one complete `recvData` cycle with the
default block size 20000 is reachable, and there the boundary (20000)
does not exceed the written extent (20000). -/
theorem recvData_boundary_safe_witness :
    SinkReachable 20000 ⟨20000, 20000, 20000, 0⟩ ∧
    (20000 ≤ 20000 ∧
      ((⟨20000, 20000, 20000, 0⟩ : SinkState).pc = 0 →
        (20000 : ℕ) = 20000)) := by
  have h1 : SinkStep 20000 initSink ⟨20000, 0, 0, 1⟩ :=
    SinkStep.setData initSink rfl
  have h2 : SinkStep 20000 ⟨20000, 0, 0, 1⟩ ⟨20000, 20000, 0, 2⟩ :=
    SinkStep.addAcquired ⟨20000, 0, 0, 1⟩ rfl
  have h3 : SinkStep 20000 ⟨20000, 20000, 0, 2⟩ ⟨20000, 20000, 20000, 0⟩ :=
    SinkStep.setLastValid ⟨20000, 20000, 0, 2⟩ rfl
  have hreach : SinkReachable 20000 ⟨20000, 20000, 20000, 0⟩ :=
    Relation.ReflTransGen.tail (Relation.ReflTransGen.tail
      (Relation.ReflTransGen.tail Relation.ReflTransGen.refl h1) h2) h3
  exact ⟨hreach, recvData_boundary_safe 20000 _ hreach⟩

/-- C2: appending a block to a live recording whose remaining capacity is
smaller than the block (`nsamples < lastValidSample + blockSize`) fails
with `CapacityError` and leaves `lastValidSample` unchanged; and after
appending `nsamples / blockSize` full blocks to a fresh recording whose
capacity is a whole number of blocks, `lastValidSample` sits at
`nsamples` and a further append of any positive width fails with
`CapacityError`. -/
theorem appendBlock_capacity :
    (∀ (r : Recording) (B : Block), r.live = true →
      r.store.nsamples < r.lastValidSample + r.blockSize →
      (appendBlock r r.blockSize B).1 = some RecError.CapacityError ∧
      (appendBlock r r.blockSize B).2.lastValidSample = r.lastValidSample) ∧
    (∀ (r : Recording) (blocks : List Block) (w : ℕ) (B : Block),
      r.live = true → r.lastValidSample = 0 →
      r.blockSize ∣ r.store.nsamples →
      blocks.length = r.store.nsamples / r.blockSize →
      0 < w →
      (appendBlocks r.blockSize r blocks).2.lastValidSample = r.store.nsamples ∧
      (appendBlock (appendBlocks r.blockSize r blocks).2 w B).1 =
        some RecError.CapacityError) := by
  constructor
  · intro r B hl hover
    unfold appendBlock
    rw [if_neg (by simp [hl]), if_pos (by omega)]
    exact ⟨rfl, rfl⟩
  · intro r blocks w B hl h0 hdvd hlen hw
    have htot : blocks.length * r.blockSize = r.store.nsamples := by
      rw [hlen]
      exact Nat.div_mul_cancel hdvd
    obtain ⟨r', heq, hlive, hlvs, _, hns, _, _, _, _, _⟩ :=
      appendBlocks_ok r.blockSize blocks r hl (by omega)
    rw [heq]
    dsimp only
    have hlvs' : r'.lastValidSample = r.store.nsamples := by omega
    refine ⟨hlvs', ?_⟩
    unfold appendBlock
    rw [if_neg (by simp [hlive]), if_pos (by omega)]

/-- C2 witness: a fresh 2-channel recording with capacity 4 and block
size 2 accepts `4 / 2 = 2` full blocks, after which `lastValidSample`
is 4 and an append of width 1 fails with `CapacityError`. -/
theorem appendBlock_capacity_witness :
    freshRec.live = true ∧ (0 : ℕ) < 1 ∧
    ((appendBlocks freshRec.blockSize freshRec [blkA, blkB]).2.lastValidSample =
        freshRec.store.nsamples ∧
      (appendBlock (appendBlocks freshRec.blockSize freshRec [blkA, blkB]).2
        1 blkA).1 = some RecError.CapacityError) :=
  ⟨rfl, by decide,
    appendBlock_capacity.2 freshRec [blkA, blkB] 1 blkA rfl rfl
      (by decide) (by decide) (by decide)⟩

/-- A store read from zero over a positive in-bounds length returns
exactly the window of that length. -/
theorem readRange_eq_window (st : Store) (k : ℕ) (h1 : 0 < k)
    (h2 : k ≤ st.nsamples) :
    st.readRange 0 (k : ℤ) = .ok (st.window 0 k) := by
  unfold Store.readRange Store.window
  rw [if_pos ⟨le_refl 0, by exact_mod_cast h1, by exact_mod_cast h2⟩]
  simp

/-- C3: appending `N` full blocks of `blockSize` samples each to a fresh
live recording with sufficient capacity succeeds, leaves
`lastValidSample = N * blockSize`, and a subsequent
`readSamples(0, lastValidSample)` returns exactly the concatenation of the
`N` blocks, in append order. -/
theorem appendBlocks_concat (r : Recording) (blocks : List Block) (N : ℕ)
    (hN : blocks.length = N) (hpos : 0 < N)
    (hl : r.live = true) (h0 : r.lastValidSample = 0)
    (hw : 0 < r.blockSize)
    (hcap : N * r.blockSize ≤ r.store.nsamples) :
    ∃ r', appendBlocks r.blockSize r blocks = (none, r') ∧
      r'.lastValidSample = N * r.blockSize ∧
      r'.readSamples 0 (r'.lastValidSample : ℤ) =
        .ok (concatBlocks r.store.nchannels r.blockSize blocks) := by
  obtain ⟨r', heq, _, hlvs, hnch, hns, _, _, _, _, hwin⟩ :=
    appendBlocks_ok r.blockSize blocks r hl (by rw [hN]; omega)
  rw [hN, h0] at hlvs
  rw [h0] at hwin
  have hlvs' : r'.lastValidSample = N * r.blockSize := by omega
  refine ⟨r', heq, hlvs', ?_⟩
  unfold Recording.readSamples
  have hpos' : 0 < r'.lastValidSample := by
    rw [hlvs']
    exact Nat.mul_pos hpos hw
  rw [if_neg (by exact_mod_cast Nat.not_le.mpr hpos'), min_self]
  rw [readRange_eq_window r'.store r'.lastValidSample hpos'
    (by rw [hlvs', hns]; exact hcap)]
  rw [hN] at hwin
  rw [hlvs', hwin]

/-- C3 witness: appending the two concrete blocks to the fresh recording
(capacity 4, block size 2) leaves `lastValidSample = 4` and reading back
the whole valid range yields their concatenation. -/
theorem appendBlocks_concat_witness :
    (0 : ℕ) < 2 ∧
    ∃ r', appendBlocks freshRec.blockSize freshRec [blkA, blkB] = (none, r') ∧
      r'.lastValidSample = 2 * freshRec.blockSize ∧
      r'.readSamples 0 (r'.lastValidSample : ℤ) =
        .ok (concatBlocks freshRec.store.nchannels freshRec.blockSize
          [blkA, blkB]) :=
  ⟨by decide,
    appendBlocks_concat freshRec [blkA, blkB] 2 rfl (by decide) rfl rfl
      (by decide) (by decide)⟩

/-- C4: over any in-bounds range below the valid boundary, the voltage
read succeeds exactly when the raw read does, and every element of the
voltage matrix is the raw element mapped through
`voltage = raw * gain - offset`. -/
theorem readVoltage_linear (r : Recording) (s e : ℤ)
    (hs : 0 ≤ s) (hse : s < e) (he : e ≤ (r.lastValidSample : ℤ))
    (hns : r.lastValidSample ≤ r.store.nsamples) :
    ∃ raw, r.readSamples s e = .ok raw ∧
      r.readVoltage s e = .ok (raw.map (fun row =>
        row.map (fun x => (x : ℚ) * r.gain - r.offset))) := by
  have hguard : ¬ (r.lastValidSample : ℤ) ≤ s := by omega
  have hmin : min e (r.lastValidSample : ℤ) = e := min_eq_left he
  have hok : 0 ≤ s ∧ s < e ∧ e ≤ (r.store.nsamples : ℤ) := by
    refine ⟨hs, hse, ?_⟩
    have : (r.lastValidSample : ℤ) ≤ (r.store.nsamples : ℤ) := by
      exact_mod_cast hns
    omega
  refine ⟨(List.range r.store.nchannels).map (fun c =>
    (List.range (e - s).toNat).map (fun i => r.store.data c (s.toNat + i))),
    ?_, ?_⟩
  · unfold Recording.readSamples Store.readRange
    rw [if_neg hguard, hmin, if_pos hok]
  · unfold Recording.readVoltage Store.readRangeAsVoltage Store.readRange
    rw [if_neg hguard, hmin, if_pos hok]
    simp [Except.map, List.map_map]

/-- C4 witness: on the concrete recording with `gain = 1/2` and
`offset = 3`, the range `[0, 10)` is readable and the voltage matrix is
the raw matrix transformed elementwise. -/
theorem readVoltage_linear_witness :
    ((0 : ℤ) ≤ 0 ∧ (0 : ℤ) < 10 ∧ (10 : ℤ) ≤ (testRec.lastValidSample : ℤ) ∧
      testRec.lastValidSample ≤ testRec.store.nsamples) ∧
    ∃ raw, testRec.readSamples 0 10 = .ok raw ∧
      testRec.readVoltage 0 10 = .ok (raw.map (fun row =>
        row.map (fun x => (x : ℚ) * testRec.gain - testRec.offset))) :=
  ⟨⟨by decide, by decide, by decide, by decide⟩,
    readVoltage_linear testRec 0 10 (by decide) (by decide) (by decide)
      (by decide)⟩

end LibDataFile
